import Mathlib

/-!
Verification of the library-tracking service model layer
(`models/user_model.py`, `models/book_model.py`).

Embedding notes.  Python objects live on a heap and lists hold references,
so a user's state is modelled as a heap of `Book` records together with
lists of references (indices into the heap).  This captures the aliasing in
the source: `add_book_favorite_books` appends to `favorite_books` the very
object found in `personal_library` and mutates its `status` in place, so
the same mutation is visible through both lists.  `Review` objects are
never shared between collections, so `reviews` holds plain values.

A call that raises an uncaught exception (the `IndexError` from
`book.get("author_name", ["Unknown"])[0]` on an empty list) is modelled by
an `Option` result, `none` standing for the crash.
-/

/-- `Book` from `models/book_model.py`: id, title, author, isbn, status. -/
structure Book where
  id : Nat
  title : String
  author : String
  isbn : Option String
  status : String
deriving DecidableEq, Repr

/-- `Review` from `models/user_model.py`. -/
structure Review where
  book_id : Nat
  book_title : String
  review_text : String
deriving DecidableEq, Repr

/-- One OpenLibrary search result document, as consumed by
`add_book_personal_library` (fields `title`, `author_name`, `isbn`;
each may be absent from the JSON object). -/
structure Doc where
  title : Option String
  author_name : Option (List String)
  isbn : Option (List String)
deriving DecidableEq, Repr

/-- One entry of the candidate list returned with HTTP 300 when the
search is ambiguous. -/
structure Candidate where
  id : Option Nat
  title : String
  author : String
  isbn : Option String
deriving DecidableEq, Repr

/-- The collections reachable from a `User` object, plus the heap of
`Book` objects they reference.  In the source these three collections are
declared at class scope on `User` (`personal_library`, `favorite_books`,
`reviews`), so they are shared by all instances; the operations below act
on this record directly. -/
structure UserState where
  heap : List Book
  personal_library : List Nat
  favorite_books : List Nat
  reviews : List Review
deriving DecidableEq, Repr

/-- The account state on a fresh process: all three class-level
collections empty. -/
def initState : UserState := ⟨[], [], [], []⟩

/-- `book.get("title", "Unknown")`. -/
def docTitle (d : Doc) : String := d.title.getD "Unknown"

/-- `book.get("author_name", ["Unknown"])[0]`: the default applies only
when the key is absent; a present-but-empty list raises `IndexError`,
modelled as `none`. -/
def docAuthor (d : Doc) : Option String :=
  match d.author_name with
  | none => some "Unknown"
  | some l => l.head?

/-- `book.get("isbn", [None])[0] if book.get("isbn") else None`: an absent
key or an empty list (both falsy) give `None`, otherwise the first entry. -/
def docIsbn (d : Doc) : Option String :=
  match d.isbn with
  | none => none
  | some [] => none
  | some (x :: _) => some x

/-- Python `str.lower()` (character-wise lowering of the string). -/
def pyLower (s : String) : String := ⟨s.data.map Char.toLower⟩

/-- Case-insensitive `(title, author)` match used by the duplicate check:
`existing_book.title.lower() == book_title.lower() and
existing_book.author.lower() == book_author.lower()`. -/
def matchesTA (b : Book) (t a : String) : Bool :=
  pyLower b.title == pyLower t && pyLower b.author == pyLower a

/-- The `for existing_book in user.personal_library` duplicate scan:
first book (dereferenced through the heap) matching case-insensitively. -/
def findDuplicate (heap : List Book) (pl : List Nat) (t a : String) : Option Book :=
  match pl with
  | [] => none
  | r :: rest =>
    match heap[r]? with
    | some b => if matchesTA b t a then some b else findDuplicate heap rest t a
    | none => findDuplicate heap rest t a

/-- The `for book in <collection>: if book.id == book_id` scan used by
favorite/delete/review/status operations: first reference whose book has
the given id, together with that book. -/
def findRefBook (heap : List Book) (l : List Nat) (bid : Nat) : Option (Nat × Book) :=
  match l with
  | [] => none
  | r :: rest =>
    match heap[r]? with
    | some b => if b.id == bid then some (r, b) else findRefBook heap rest bid
    | none => findRefBook heap rest bid

/-- The list comprehension building the ambiguous-candidate payload; it
evaluates `book.get("author_name", ["Unknown"])[0]` for every document, so
it crashes (`none`) as soon as any document has `author_name == []`. -/
def mkCandidates : List Doc → Option (List Candidate)
  | [] => some []
  | d :: rest =>
    match docAuthor d with
    | none => none
    | some a =>
      match mkCandidates rest with
      | none => none
      | some cs => some (⟨none, docTitle d, a, docIsbn d⟩ :: cs)

/-- Outcomes of `add_book_personal_library`, one constructor per return
site of the source function. -/
inductive AddBookResult where
  | validationError : AddBookResult
  | notFound : AddBookResult
  | ambiguous : List Candidate → AddBookResult
  | duplicate : Book → AddBookResult
  | success : Book → AddBookResult
deriving DecidableEq, Repr

/-- HTTP status code attached to each `add_book_personal_library`
outcome in the source. -/
def add_book_status : AddBookResult → Nat
  | .validationError => 400
  | .notFound => 404
  | .ambiguous _ => 300
  | .duplicate _ => 400
  | .success _ => 200

/-- `add_book_personal_library(user, book_data)`.  `title`/`author` are the
optional entries of `book_data`; `docs` is the candidate list the
OpenLibrary call returned (`response.json().get("docs", [])`).  The result
is `none` when the call raises an uncaught `IndexError`. -/
def add_book_personal_library (s : UserState) (title author : Option String)
    (docs : List Doc) : Option (AddBookResult × UserState) :=
  match title with
  | none => some (.validationError, s)
  | some t =>
    if t = "" then some (.validationError, s)
    else
      match docs with
      | [] => some (.notFound, s)
      | d :: rest =>
        if (d :: rest).length == 1 || author.isSome then
          match docAuthor d with
          | none => none
          | some book_author =>
            match findDuplicate s.heap s.personal_library (docTitle d) book_author with
            | some existing => some (.duplicate existing, s)
            | none =>
              let new_book : Book :=
                ⟨s.personal_library.length + 1, docTitle d, book_author,
                  docIsbn d, "Want to Read"⟩
              some (.success new_book,
                { s with heap := s.heap ++ [new_book],
                         personal_library := s.personal_library ++ [s.heap.length] })
        else
          match mkCandidates (d :: rest) with
          | none => none
          | some cands => some (.ambiguous cands, s)

/-- Outcomes of `add_book_favorite_books`. -/
inductive FavResult where
  | notFound : Nat → FavResult
  | duplicate : String → FavResult
  | success : Book → FavResult
deriving DecidableEq, Repr

/-- `add_book_favorite_books(user, book_id)`: find the book in
`personal_library`; 404 if absent; 400 if a favorite already has that id;
otherwise set the shared object's status to "Read" and append the same
reference to `favorite_books`. -/
def add_book_favorite_books (s : UserState) (bid : Nat) : FavResult × UserState :=
  match findRefBook s.heap s.personal_library bid with
  | none => (.notFound bid, s)
  | some (r, b) =>
    match findRefBook s.heap s.favorite_books bid with
    | some (_, bf) => (.duplicate bf.title, s)
    | none =>
      let b' : Book := { b with status := "Read" }
      (.success b',
        { s with heap := s.heap.set r b',
                 favorite_books := s.favorite_books ++ [r] })

/-- Outcomes of `delete_book_from_library`. -/
inductive DeleteBookResult where
  | notFound : Nat → DeleteBookResult
  | success : String → DeleteBookResult
deriving DecidableEq, Repr

/-- `delete_book_from_library(user, book_id)`: find the first book with
the id, 404 if absent, else `list.remove` of that object (removal of the
first occurrence of its reference). -/
def delete_book_from_library (s : UserState) (bid : Nat) : DeleteBookResult × UserState :=
  match findRefBook s.heap s.personal_library bid with
  | none => (.notFound bid, s)
  | some (r, b) =>
    (.success b.title, { s with personal_library := s.personal_library.erase r })

/-- Outcomes of `update_status`. -/
inductive UpdateResult where
  | invalidStatus : UpdateResult
  | notFound : Nat → UpdateResult
  | persistenceError : UpdateResult
  | success : Book → UpdateResult
deriving DecidableEq, Repr

/-- HTTP status code attached to each `update_status` outcome. -/
def update_status_code : UpdateResult → Nat
  | .invalidStatus => 400
  | .notFound _ => 404
  | .persistenceError => 500
  | .success _ => 200

/-- `update_status(user, book_id, new_status)`.  `dbOk` models whether the
`sqlite3` write succeeds.  The in-memory mutation
`book_to_update.status = new_status` happens before the write, so the new
state is the same whether or not the write succeeds. -/
def update_status (s : UserState) (bid : Nat) (new_status : String)
    (dbOk : Bool) : UpdateResult × UserState :=
  if new_status ∉ ["Want to Read", "Reading", "Read"] then (.invalidStatus, s)
  else
    match findRefBook s.heap s.personal_library bid with
    | none => (.notFound bid, s)
    | some (r, b) =>
      let b' : Book := { b with status := new_status }
      let s' : UserState := { s with heap := s.heap.set r b' }
      if dbOk then (.success b', s') else (.persistenceError, s')

/-- Outcomes of `add_book_review`. -/
inductive AddReviewResult where
  | validationError : AddReviewResult
  | notFound : Nat → AddReviewResult
  | duplicate : String → AddReviewResult
  | success : Review → AddReviewResult
deriving DecidableEq, Repr

/-- `add_book_review(user, review_text, book_id)`. -/
def add_book_review (s : UserState) (review_text : String) (bid : Nat) :
    AddReviewResult × UserState :=
  if review_text = "" then (.validationError, s)
  else
    match findRefBook s.heap s.personal_library bid with
    | none => (.notFound bid, s)
    | some (_, b) =>
      if s.reviews.any (fun rv => rv.book_id == bid) then (.duplicate b.title, s)
      else
        let nr : Review := ⟨bid, b.title, review_text⟩
        (.success nr, { s with reviews := s.reviews ++ [nr] })

/-- Outcomes of `delete_review`.  `noReview` is the declined-delete
informational return ("You have not reviewed ..."), distinct from the
error constructors. -/
inductive DeleteReviewResult where
  | validationError : DeleteReviewResult
  | notFound : Nat → DeleteReviewResult
  | deleted : String → DeleteReviewResult
  | noReview : String → DeleteReviewResult
deriving DecidableEq, Repr

/-- `user.reviews.remove(review_to_delete)` where `review_to_delete` is the
first review with the given book id: removal of the first match. -/
def removeFirstReview : List Review → Nat → List Review
  | [], _ => []
  | rv :: rest, n => if rv.book_id == n then rest else rv :: removeFirstReview rest n

/-- `delete_review(user, book_id)`.  `book_id` arrives from the request
body, so it may be absent (`none`); `if not book_id` also treats `0` as
missing. -/
def delete_review (s : UserState) (bid : Option Nat) : DeleteReviewResult × UserState :=
  match bid with
  | none => (.validationError, s)
  | some n =>
    if n = 0 then (.validationError, s)
    else
      match findRefBook s.heap s.personal_library n with
      | none => (.notFound n, s)
      | some (_, b) =>
        match s.reviews.find? (fun rv => rv.book_id == n) with
        | some _ => (.deleted b.title, { s with reviews := removeFirstReview s.reviews n })
        | none => (.noReview b.title, s)

/-- The books of the personal library as observed through the heap. -/
def booksOf (s : UserState) : List Book :=
  s.personal_library.filterMap (fun r => s.heap[r]?)

/-- Well-formed state: every library reference points into the heap. -/
def WF (s : UserState) : Prop :=
  ∀ r ∈ s.personal_library, r < s.heap.length

/-- The favorites-subset property of §3: every book in `favorite_books`
has an id that is also the id of some book currently in
`personal_library`. -/
def FavSubsetP (s : UserState) : Prop :=
  ∀ r ∈ s.favorite_books, ∃ b, s.heap[r]? = some b ∧
    ∃ r2 ∈ s.personal_library, ∃ b2, s.heap[r2]? = some b2 ∧ b2.id = b.id

/-! ### Helper lemmas about the scan functions -/

theorem findRefBook_eq_some {heap : List Book} {l : List Nat} {bid : Nat}
    {r : Nat} {b : Book} (h : findRefBook heap l bid = some (r, b)) :
    r ∈ l ∧ heap[r]? = some b ∧ b.id = bid := by
  induction l with
  | nil => simp [findRefBook] at h
  | cons x xs ih =>
    cases hx : heap[x]? with
    | none =>
      simp only [findRefBook, hx] at h
      rcases ih h with ⟨h1, h2, h3⟩
      exact ⟨List.mem_cons_of_mem _ h1, h2, h3⟩
    | some bx =>
      simp only [findRefBook, hx] at h
      by_cases hb : bx.id == bid
      · rw [if_pos hb] at h
        cases h
        exact ⟨List.mem_cons_self _ _, hx, eq_of_beq hb⟩
      · rw [if_neg hb] at h
        rcases ih h with ⟨h1, h2, h3⟩
        exact ⟨List.mem_cons_of_mem _ h1, h2, h3⟩

theorem findRefBook_eq_none {heap : List Book} {l : List Nat} {bid : Nat} :
    findRefBook heap l bid = none ↔
      ∀ r ∈ l, ∀ b : Book, heap[r]? = some b → b.id ≠ bid := by
  induction l with
  | nil => simp [findRefBook]
  | cons x xs ih =>
    cases hx : heap[x]? with
    | none =>
      simp only [findRefBook, hx]
      rw [ih]
      constructor
      · intro h r hr b hb
        rcases List.mem_cons.mp hr with rfl | hr
        · rw [hx] at hb; cases hb
        · exact h r hr b hb
      · intro h r hr b hb
        exact h r (List.mem_cons_of_mem _ hr) b hb
    | some bx =>
      simp only [findRefBook, hx]
      by_cases hb : bx.id == bid
      · rw [if_pos hb]
        constructor
        · intro h; cases h
        · intro h
          exact absurd (eq_of_beq hb) (h x (List.mem_cons_self _ _) bx hx)
      · rw [if_neg hb, ih]
        constructor
        · intro h r hr b hbr
          rcases List.mem_cons.mp hr with rfl | hr
          · rw [hx] at hbr
            cases hbr
            exact fun he => hb (by simp [he])
          · exact h r hr b hbr
        · intro h r hr b hbr
          exact h r (List.mem_cons_of_mem _ hr) b hbr

theorem findDuplicate_eq_some {heap : List Book} {pl : List Nat} {t a : String}
    {b : Book} (h : findDuplicate heap pl t a = some b) :
    ∃ r ∈ pl, heap[r]? = some b ∧ matchesTA b t a = true := by
  induction pl with
  | nil => simp [findDuplicate] at h
  | cons x xs ih =>
    cases hx : heap[x]? with
    | none =>
      simp only [findDuplicate, hx] at h
      rcases ih h with ⟨r, h1, h2, h3⟩
      exact ⟨r, List.mem_cons_of_mem _ h1, h2, h3⟩
    | some bx =>
      simp only [findDuplicate, hx] at h
      by_cases hm : matchesTA bx t a
      · rw [if_pos hm] at h
        cases h
        exact ⟨x, List.mem_cons_self _ _, hx, hm⟩
      · rw [if_neg hm] at h
        rcases ih h with ⟨r, h1, h2, h3⟩
        exact ⟨r, List.mem_cons_of_mem _ h1, h2, h3⟩

theorem findDuplicate_eq_none {heap : List Book} {pl : List Nat} {t a : String} :
    findDuplicate heap pl t a = none ↔
      ∀ r ∈ pl, ∀ b : Book, heap[r]? = some b → matchesTA b t a = false := by
  induction pl with
  | nil => simp [findDuplicate]
  | cons x xs ih =>
    cases hx : heap[x]? with
    | none =>
      simp only [findDuplicate, hx]
      rw [ih]
      constructor
      · intro h r hr b hb
        rcases List.mem_cons.mp hr with rfl | hr
        · rw [hx] at hb; cases hb
        · exact h r hr b hb
      · intro h r hr b hb
        exact h r (List.mem_cons_of_mem _ hr) b hb
    | some bx =>
      simp only [findDuplicate, hx]
      by_cases hm : matchesTA bx t a
      · rw [if_pos hm]
        constructor
        · intro h; cases h
        · intro h
          rw [h x (List.mem_cons_self _ _) bx hx] at hm
          cases hm
      · rw [if_neg hm, ih]
        constructor
        · intro h r hr b hbr
          rcases List.mem_cons.mp hr with rfl | hr
          · rw [hx] at hbr
            cases hbr
            exact Bool.eq_false_iff.mpr hm
          · exact h r hr b hbr
        · intro h r hr b hbr
          exact h r (List.mem_cons_of_mem _ hr) b hbr

theorem docAuthor_isSome {d : Doc} (h : d.author_name ≠ some []) :
    ∃ a, docAuthor d = some a := by
  unfold docAuthor
  cases hd : d.author_name with
  | none => exact ⟨"Unknown", rfl⟩
  | some l =>
    cases l with
    | nil => exact absurd hd h
    | cons x xs => exact ⟨x, rfl⟩

theorem mkCandidates_total {docs : List Doc}
    (h : ∀ d ∈ docs, d.author_name ≠ some []) :
    ∃ cands, mkCandidates docs = some cands ∧ cands.length = docs.length ∧
      ∀ c ∈ cands, c.id = none := by
  induction docs with
  | nil => exact ⟨[], rfl, rfl, by simp⟩
  | cons d rest ih =>
    rcases docAuthor_isSome (h d (List.mem_cons_self _ _)) with ⟨a, ha⟩
    rcases ih (fun x hx => h x (List.mem_cons_of_mem _ hx)) with ⟨cs, hcs, hlen, hid⟩
    refine ⟨⟨none, docTitle d, a, docIsbn d⟩ :: cs, ?_, by simp [hlen], ?_⟩
    · rw [mkCandidates, ha, hcs]
    · intro c hc
      rcases List.mem_cons.mp hc with rfl | hc
      · rfl
      · exact hid c hc

theorem mkCandidates_crash {docs : List Doc} {d : Doc}
    (hmem : d ∈ docs) (ha : docAuthor d = none) :
    mkCandidates docs = none := by
  induction docs with
  | nil => cases hmem
  | cons x xs ih =>
    rcases List.mem_cons.mp hmem with rfl | hmem
    · rw [mkCandidates, ha]
    · rw [mkCandidates]
      cases hx : docAuthor x with
      | none => rfl
      | some a => rw [ih hmem]

theorem mem_booksOf {s : UserState} {b : Book} :
    b ∈ booksOf s ↔ ∃ r ∈ s.personal_library, s.heap[r]? = some b := by
  simp [booksOf, List.mem_filterMap]

theorem findDuplicate_of_exists {s : UserState} {t a : String}
    (h : ∃ b ∈ booksOf s, matchesTA b t a = true) :
    ∃ b', findDuplicate s.heap s.personal_library t a = some b' ∧
      b' ∈ booksOf s ∧ matchesTA b' t a = true := by
  cases hfd : findDuplicate s.heap s.personal_library t a with
  | none =>
    rcases h with ⟨b, hb, hm⟩
    rcases mem_booksOf.mp hb with ⟨r, hr, hrb⟩
    rw [findDuplicate_eq_none.mp hfd r hr b hrb] at hm
    cases hm
  | some b' =>
    rcases findDuplicate_eq_some hfd with ⟨r, hr, hrb, hm⟩
    exact ⟨b', rfl, mem_booksOf.mpr ⟨r, hr, hrb⟩, hm⟩

theorem findDuplicate_none_of_forall {s : UserState} {t a : String}
    (h : ∀ b ∈ booksOf s, matchesTA b t a = false) :
    findDuplicate s.heap s.personal_library t a = none :=
  findDuplicate_eq_none.mpr fun r hr b hrb =>
    h b (mem_booksOf.mpr ⟨r, hr, hrb⟩)

/-! ### Claims about `add_book_personal_library` -/

/-- Claim C1: whenever the external search returns a non-empty candidate
list, the engine commits to candidate 0 and proceeds to the duplicate
check if exactly one candidate was returned or the caller supplied an
author; otherwise it returns the ambiguous outcome (HTTP 300) carrying the
full candidate list with every id null, without modifying
`personal_library`. -/
theorem addBook_commits_or_disambiguates
    (s : UserState) (t : String) (author : Option String) (d : Doc) (rest : List Doc)
    (ht : t ≠ "")
    (hwf : ∀ x ∈ d :: rest, x.author_name ≠ some []) :
    ((d :: rest).length = 1 ∨ author.isSome = true →
      ∃ a res s', docAuthor d = some a ∧
        add_book_personal_library s (some t) author (d :: rest) = some (res, s') ∧
        ((∃ b, res = AddBookResult.duplicate b ∧ b ∈ booksOf s ∧
            matchesTA b (docTitle d) a = true) ∨
         (∃ b, res = AddBookResult.success b ∧ b.title = docTitle d ∧
            b.author = a))) ∧
    (¬((d :: rest).length = 1 ∨ author.isSome = true) →
      ∃ cands, add_book_personal_library s (some t) author (d :: rest) =
          some (AddBookResult.ambiguous cands, s) ∧
        add_book_status (AddBookResult.ambiguous cands) = 300 ∧
        cands.length = (d :: rest).length ∧ ∀ c ∈ cands, c.id = none) := by
  constructor
  · intro h1
    rcases docAuthor_isSome (hwf d (List.mem_cons_self _ _)) with ⟨a, ha⟩
    have hguard : ((d :: rest).length == 1 || author.isSome) = true := by
      rcases h1 with h | h
      · simp [h]
      · simp [h]
    cases hfd : findDuplicate s.heap s.personal_library (docTitle d) a with
    | some existing =>
      refine ⟨a, AddBookResult.duplicate existing, s, ha, ?_, ?_⟩
      · simp only [add_book_personal_library, if_neg ht, hguard, if_true, ha, hfd]
      · left
        rcases findDuplicate_eq_some hfd with ⟨r, hr, hrb, hm⟩
        exact ⟨existing, rfl, mem_booksOf.mpr ⟨r, hr, hrb⟩, hm⟩
    | none =>
      have heq : add_book_personal_library s (some t) author (d :: rest) =
          some (AddBookResult.success ⟨s.personal_library.length + 1, docTitle d, a,
              docIsbn d, "Want to Read"⟩,
            ⟨s.heap ++ [⟨s.personal_library.length + 1, docTitle d, a,
              docIsbn d, "Want to Read"⟩],
             s.personal_library ++ [s.heap.length], s.favorite_books, s.reviews⟩) := by
        simp only [add_book_personal_library, if_neg ht, hguard, if_true, ha, hfd]
      exact ⟨a, _, _, ha, heq, Or.inr ⟨_, rfl, rfl, rfl⟩⟩
  · intro h2
    have hguard : ((d :: rest).length == 1 || author.isSome) = false := by
      push_neg at h2
      rcases h2 with ⟨hl, hs⟩
      have hrest : rest ≠ [] := fun h => hl (by simp [h])
      simp [hrest, Bool.eq_false_iff.mpr hs]
    rcases mkCandidates_total hwf with ⟨cands, hc, hlen, hid⟩
    refine ⟨cands, ?_, rfl, hlen, hid⟩
    simp only [add_book_personal_library, if_neg ht, hguard, Bool.false_eq_true,
      if_false, hc]

/-- Concrete OpenLibrary document used by the witnesses. -/
def docDune : Doc := ⟨some "Dune", some ["Frank Herbert"], some ["9780441013593"]⟩

/-- A second concrete document, so a search can be ambiguous. -/
def docDune2 : Doc := ⟨some "Dune", some ["Brian Herbert"], none⟩

/-- A library already holding a case-variant of Dune. -/
def bookDuneVariant : Book := ⟨1, "DUNE", "frank herbert", none, "Reading"⟩

/-- A one-book state whose only book is `bookDuneVariant`. -/
def stOne : UserState := ⟨[bookDuneVariant], [0], [], []⟩

theorem addBook_commits_or_disambiguates_witness :
    ∃ cands, add_book_personal_library initState (some "Dune") none [docDune, docDune2] =
        some (AddBookResult.ambiguous cands, initState) ∧
      add_book_status (AddBookResult.ambiguous cands) = 300 ∧
      cands.length = ([docDune, docDune2] : List Doc).length ∧
      ∀ c ∈ cands, c.id = none :=
  (addBook_commits_or_disambiguates initState "Dune" none docDune [docDune2]
    (by decide) (by decide)).2 (by decide)

/-- Claim C2: on the committed-candidate path, if an existing book matches
the committed candidate's `(title, author)` case-insensitively, the call
returns the duplicate outcome (HTTP 400) carrying that existing book, and
the state — in particular `personal_library` and its length — is
unchanged. -/
theorem addBook_duplicate_declined
    (s : UserState) (t : String) (author : Option String) (d : Doc) (rest : List Doc)
    (ht : t ≠ "")
    (hcommit : (d :: rest).length = 1 ∨ author.isSome = true)
    (a : String) (ha : docAuthor d = some a)
    (hdup : ∃ b ∈ booksOf s, matchesTA b (docTitle d) a = true) :
    ∃ existing, add_book_personal_library s (some t) author (d :: rest) =
        some (AddBookResult.duplicate existing, s) ∧
      existing ∈ booksOf s ∧ matchesTA existing (docTitle d) a = true ∧
      add_book_status (AddBookResult.duplicate existing) = 400 := by
  have hguard : ((d :: rest).length == 1 || author.isSome) = true := by
    rcases hcommit with h | h
    · simp [h]
    · simp [h]
  rcases findDuplicate_of_exists hdup with ⟨b', hfd, hmem, hm⟩
  refine ⟨b', ?_, hmem, hm, rfl⟩
  simp only [add_book_personal_library, if_neg ht, hguard, if_true, ha, hfd]

theorem addBook_duplicate_declined_witness :
    ∃ existing, add_book_personal_library stOne (some "Dune") (some "Frank Herbert")
          [docDune] =
        some (AddBookResult.duplicate existing, stOne) ∧
      existing ∈ booksOf stOne ∧
      matchesTA existing (docTitle docDune) "Frank Herbert" = true ∧
      add_book_status (AddBookResult.duplicate existing) = 400 :=
  addBook_duplicate_declined stOne "Dune" (some "Frank Herbert") docDune []
    (by decide) (Or.inl rfl) "Frank Herbert" (by decide) (by decide)

/-- Claim C3: on the committed-candidate path with no duplicate, the call
appends exactly one new book whose id is the previous library length plus
one, whose title/author come from the committed candidate (author
defaulting to "Unknown" only when absent), whose isbn is the candidate's
first ISBN entry if present else null, and whose status is
"Want to Read", and returns success with that book. -/
theorem addBook_appends_new_book
    (s : UserState) (t : String) (author : Option String) (d : Doc) (rest : List Doc)
    (ht : t ≠ "")
    (hcommit : (d :: rest).length = 1 ∨ author.isSome = true)
    (a : String) (ha : docAuthor d = some a)
    (hnodup : ∀ b ∈ booksOf s, matchesTA b (docTitle d) a = false) :
    ∃ nb : Book,
      nb = ⟨s.personal_library.length + 1, docTitle d, a, docIsbn d, "Want to Read"⟩ ∧
      add_book_personal_library s (some t) author (d :: rest) =
        some (AddBookResult.success nb,
          ⟨s.heap ++ [nb], s.personal_library ++ [s.heap.length],
           s.favorite_books, s.reviews⟩) ∧
      (WF s →
        booksOf ⟨s.heap ++ [nb], s.personal_library ++ [s.heap.length],
          s.favorite_books, s.reviews⟩ = booksOf s ++ [nb]) := by
  have hguard : ((d :: rest).length == 1 || author.isSome) = true := by
    rcases hcommit with h | h
    · simp [h]
    · simp [h]
  have hfd := findDuplicate_none_of_forall hnodup
  refine ⟨_, rfl, ?_, ?_⟩
  · simp only [add_book_personal_library, if_neg ht, hguard, if_true, ha, hfd]
  · intro hWF
    show (s.personal_library ++ [s.heap.length]).filterMap
        (fun r => (s.heap ++ [(⟨s.personal_library.length + 1, docTitle d, a,
          docIsbn d, "Want to Read"⟩ : Book)])[r]?) =
      s.personal_library.filterMap (fun r => s.heap[r]?) ++
        [⟨s.personal_library.length + 1, docTitle d, a, docIsbn d, "Want to Read"⟩]
    rw [List.filterMap_append]
    congr 1
    · exact List.filterMap_congr fun r hr => List.getElem?_append_left (hWF r hr)
    · simp [List.getElem?_concat_length]

theorem addBook_appends_new_book_witness :
    ∃ nb : Book,
      nb = ⟨1, "Dune", "Frank Herbert", some "9780441013593", "Want to Read"⟩ ∧
      add_book_personal_library initState (some "Dune") none [docDune] =
        some (AddBookResult.success nb, ⟨[nb], [0], [], []⟩) ∧
      (WF initState → booksOf ⟨[nb], [0], [], []⟩ = booksOf initState ++ [nb]) :=
  addBook_appends_new_book initState "Dune" none docDune []
    (by decide) (Or.inl rfl) "Frank Herbert" (by decide) (by decide)

/-! ### Lemmas about scans after an in-place status mutation -/

theorem findRefBook_set_found {heap : List Book} {l : List Nat} {bid r : Nat} {b : Book}
    (h : findRefBook heap l bid = some (r, b)) (b' : Book) (hid : b'.id = bid) :
    findRefBook (heap.set r b') l bid = some (r, b') := by
  induction l with
  | nil => simp [findRefBook] at h
  | cons x xs ih =>
    cases hx : heap[x]? with
    | none =>
      simp only [findRefBook, hx] at h
      have hxr : x ≠ r := by
        intro he; subst he
        rcases findRefBook_eq_some h with ⟨_, h2, _⟩
        rw [hx] at h2; cases h2
      simp only [findRefBook, List.getElem?_set_ne (Ne.symm hxr), hx]
      exact ih h
    | some bx =>
      simp only [findRefBook, hx] at h
      by_cases hb : bx.id == bid
      · rw [if_pos hb] at h
        cases h
        have hlt : r < heap.length := (List.getElem?_eq_some.mp hx).1
        simp only [findRefBook, List.getElem?_set_eq_of_lt b' hlt]
        rw [if_pos (by simp [hid])]
      · rw [if_neg hb] at h
        have hxr : x ≠ r := by
          intro he; subst he
          rcases findRefBook_eq_some h with ⟨_, h2, h3⟩
          rw [hx] at h2
          cases h2
          exact hb (by simp [h3])
        simp only [findRefBook, List.getElem?_set_ne (Ne.symm hxr), hx]
        rw [if_neg hb]
        exact ih h

theorem findRefBook_none_set_append {heap : List Book} {fav : List Nat}
    {bid r : Nat} {b : Book}
    (hnone : findRefBook heap fav bid = none)
    (hrb : heap[r]? = some b) (hid : b.id = bid) (b' : Book) (hid' : b'.id = bid) :
    findRefBook (heap.set r b') (fav ++ [r]) bid = some (r, b') := by
  induction fav with
  | nil =>
    have hlt : r < heap.length := (List.getElem?_eq_some.mp hrb).1
    simp only [List.nil_append, findRefBook, List.getElem?_set_eq_of_lt b' hlt]
    rw [if_pos (by simp [hid'])]
  | cons x xs ih =>
    have hx := findRefBook_eq_none.mp hnone
    have hxr : x ≠ r := by
      intro he; subst he
      exact absurd hid (hx x (List.mem_cons_self _ _) b hrb)
    have hnone' : findRefBook heap xs bid = none :=
      findRefBook_eq_none.mpr fun r' hr' b2 hb2 =>
        hx r' (List.mem_cons_of_mem _ hr') b2 hb2
    cases hxe : heap[x]? with
    | none =>
      simp only [List.cons_append, findRefBook,
        List.getElem?_set_ne (Ne.symm hxr), hxe]
      exact ih hnone'
    | some bx =>
      have hbx : bx.id ≠ bid := hx x (List.mem_cons_self _ _) bx hxe
      simp only [List.cons_append, findRefBook,
        List.getElem?_set_ne (Ne.symm hxr), hxe]
      rw [if_neg (by simpa using hbx)]
      exact ih hnone'

/-- Claim C4: `favoriteBook` is idempotent-rejecting.  If the book is in
`personal_library` and not yet in `favorite_books`, the first call
succeeds, mutates the very heap entry referenced by `personal_library` to
status "Read" and appends that same reference to `favorite_books`; an
immediately following second call returns the duplicate outcome and leaves
the state unchanged; a call whose id is absent from `personal_library`
returns the not-found outcome. -/
theorem favoriteBook_idempotent_rejecting (s : UserState) (bid : Nat) :
    (∀ r b, findRefBook s.heap s.personal_library bid = some (r, b) →
      findRefBook s.heap s.favorite_books bid = none →
      ∃ b', b' = { b with status := "Read" } ∧
        add_book_favorite_books s bid =
          (FavResult.success b',
            ⟨s.heap.set r b', s.personal_library, s.favorite_books ++ [r],
             s.reviews⟩) ∧
        r ∈ s.personal_library ∧
        (s.heap.set r b')[r]? = some b' ∧
        (∃ title, add_book_favorite_books
            ⟨s.heap.set r b', s.personal_library, s.favorite_books ++ [r],
             s.reviews⟩ bid =
          (FavResult.duplicate title,
            ⟨s.heap.set r b', s.personal_library, s.favorite_books ++ [r],
             s.reviews⟩))) ∧
    (findRefBook s.heap s.personal_library bid = none →
      add_book_favorite_books s bid = (FavResult.notFound bid, s)) := by
  constructor
  · intro r b h1 h2
    rcases findRefBook_eq_some h1 with ⟨hr, hrb, hbid⟩
    have hlt : r < s.heap.length := (List.getElem?_eq_some.mp hrb).1
    refine ⟨{ b with status := "Read" }, rfl, ?_, hr, ?_, ?_⟩
    · simp only [add_book_favorite_books, h1, h2]
    · exact List.getElem?_set_eq_of_lt _ hlt
    · have hfind' : findRefBook (s.heap.set r { b with status := "Read" })
          s.personal_library bid = some (r, { b with status := "Read" }) :=
        findRefBook_set_found h1 _ hbid
      have hfav' : findRefBook (s.heap.set r { b with status := "Read" })
          (s.favorite_books ++ [r]) bid = some (r, { b with status := "Read" }) :=
        findRefBook_none_set_append h2 hrb hbid _ hbid
      exact ⟨b.title, by simp only [add_book_favorite_books, hfind', hfav']⟩
  · intro h
    simp only [add_book_favorite_books, h]

theorem favoriteBook_idempotent_rejecting_witness :
    ∃ b', b' = { bookDuneVariant with status := "Read" } ∧
      add_book_favorite_books stOne 1 =
        (FavResult.success b',
          ⟨stOne.heap.set 0 b', stOne.personal_library,
           stOne.favorite_books ++ [0], stOne.reviews⟩) ∧
      0 ∈ stOne.personal_library ∧
      (stOne.heap.set 0 b')[0]? = some b' ∧
      (∃ title, add_book_favorite_books
          ⟨stOne.heap.set 0 b', stOne.personal_library,
           stOne.favorite_books ++ [0], stOne.reviews⟩ 1 =
        (FavResult.duplicate title,
          ⟨stOne.heap.set 0 b', stOne.personal_library,
           stOne.favorite_books ++ [0], stOne.reviews⟩)) :=
  (favoriteBook_idempotent_rejecting stOne 1).1 0 bookDuneVariant
    (by decide) (by decide)

/-! ### Claim about `update_status` -/

/-- Claim C6: `update_status` is not atomic on persistence failure.  For a
book present in the library and a valid status, a failing store write
returns the persistence-error outcome (HTTP 500) but the in-memory book
has already been changed to the new status — the resulting state is
exactly the one a successful write would produce. -/
theorem updateStatus_mutates_before_persist
    (s : UserState) (bid : Nat) (new_status : String) (r : Nat) (b : Book)
    (hvalid : new_status ∈ ["Want to Read", "Reading", "Read"])
    (hfind : findRefBook s.heap s.personal_library bid = some (r, b)) :
    update_status s bid new_status false =
      (UpdateResult.persistenceError,
        ⟨s.heap.set r { b with status := new_status }, s.personal_library,
         s.favorite_books, s.reviews⟩) ∧
    update_status_code UpdateResult.persistenceError = 500 ∧
    (s.heap.set r { b with status := new_status })[r]? =
      some { b with status := new_status } ∧
    update_status s bid new_status true =
      (UpdateResult.success { b with status := new_status },
        ⟨s.heap.set r { b with status := new_status }, s.personal_library,
         s.favorite_books, s.reviews⟩) := by
  rcases findRefBook_eq_some hfind with ⟨hr, hrb, hbid⟩
  have hlt : r < s.heap.length := (List.getElem?_eq_some.mp hrb).1
  refine ⟨?_, rfl, List.getElem?_set_eq_of_lt _ hlt, ?_⟩
  · simp only [update_status, if_neg (not_not_intro hvalid), hfind, Bool.false_eq_true,
      if_false]
  · simp only [update_status, if_neg (not_not_intro hvalid), hfind, if_true]

theorem updateStatus_mutates_before_persist_witness :
    update_status stOne 1 "Read" false =
      (UpdateResult.persistenceError,
        ⟨stOne.heap.set 0 { bookDuneVariant with status := "Read" },
         stOne.personal_library, stOne.favorite_books, stOne.reviews⟩) ∧
    update_status_code UpdateResult.persistenceError = 500 ∧
    (stOne.heap.set 0 { bookDuneVariant with status := "Read" })[0]? =
      some { bookDuneVariant with status := "Read" } ∧
    update_status stOne 1 "Read" true =
      (UpdateResult.success { bookDuneVariant with status := "Read" },
        ⟨stOne.heap.set 0 { bookDuneVariant with status := "Read" },
         stOne.personal_library, stOne.favorite_books, stOne.reviews⟩) :=
  updateStatus_mutates_before_persist stOne 1 "Read" 0 bookDuneVariant
    (by decide) (by decide)

/-! ### Claim about `delete_review` -/

theorem removeFirstReview_decomp {pre post : List Review} {rv : Review} {n : Nat}
    (hpre : ∀ rv' ∈ pre, rv'.book_id ≠ n) (hrv : rv.book_id = n) :
    removeFirstReview (pre ++ rv :: post) n = pre ++ post := by
  induction pre with
  | nil => simp [removeFirstReview, hrv]
  | cons x xs ih =>
    have hx : x.book_id ≠ n := hpre x (List.mem_cons_self _ _)
    simp only [List.cons_append, removeFirstReview]
    rw [if_neg (by simpa using hx)]
    show x :: removeFirstReview (xs ++ rv :: post) n = x :: (xs ++ post)
    rw [ih fun rv' h => hpre rv' (List.mem_cons_of_mem _ h)]

theorem find?_review_decomp {pre post : List Review} {rv : Review} {n : Nat}
    (hpre : ∀ rv' ∈ pre, rv'.book_id ≠ n) (hrv : rv.book_id = n) :
    (pre ++ rv :: post).find? (fun x => x.book_id == n) = some rv := by
  induction pre with
  | nil =>
    rw [List.nil_append]
    exact List.find?_cons_of_pos _ (by simp [hrv])
  | cons x xs ih =>
    have hx : x.book_id ≠ n := hpre x (List.mem_cons_self _ _)
    rw [List.cons_append, List.find?_cons_of_neg _ (by simpa using hx)]
    exact ih fun rv' h => hpre rv' (List.mem_cons_of_mem _ h)

/-- Claim C7: `delete_review` fails with the validation outcome when
`book_id` is missing; fails with the not-found outcome when no book with
that id is in `personal_library` (so a review of a deleted book cannot be
deleted here); returns the declined-delete informational outcome (not an
error constructor) when the book exists but has no review; and otherwise
removes exactly the first review for that book id. -/
theorem deleteReview_case_analysis (s : UserState) (bid : Option Nat) :
    (bid = none → delete_review s bid = (DeleteReviewResult.validationError, s)) ∧
    (∀ n, bid = some n → n ≠ 0 →
      findRefBook s.heap s.personal_library n = none →
      delete_review s bid = (DeleteReviewResult.notFound n, s)) ∧
    (∀ n r b, bid = some n → n ≠ 0 →
      findRefBook s.heap s.personal_library n = some (r, b) →
      (∀ rv ∈ s.reviews, rv.book_id ≠ n) →
      delete_review s bid = (DeleteReviewResult.noReview b.title, s)) ∧
    (∀ n r b pre rv post, bid = some n → n ≠ 0 →
      findRefBook s.heap s.personal_library n = some (r, b) →
      s.reviews = pre ++ rv :: post →
      (∀ rv' ∈ pre, rv'.book_id ≠ n) → rv.book_id = n →
      delete_review s bid =
        (DeleteReviewResult.deleted b.title,
          ⟨s.heap, s.personal_library, s.favorite_books, pre ++ post⟩)) := by
  refine ⟨?_, ?_, ?_, ?_⟩
  · intro h; subst h; rfl
  · intro n h hn hfind
    subst h
    simp only [delete_review, if_neg hn, hfind]
  · intro n r b h hn hfind hall
    subst h
    have hf : s.reviews.find? (fun rv => rv.book_id == n) = none :=
      List.find?_eq_none.mpr fun x hx => by simpa using hall x hx
    simp only [delete_review, if_neg hn, hfind, hf]
  · intro n r b pre rv post h hn hfind hrev hpre hrvn
    subst h
    have hf : s.reviews.find? (fun x => x.book_id == n) = some rv := by
      rw [hrev]; exact find?_review_decomp hpre hrvn
    have hrm : removeFirstReview s.reviews n = pre ++ post := by
      rw [hrev]; exact removeFirstReview_decomp hpre hrvn
    simp only [delete_review, if_neg hn, hfind, hf, hrm]

/-- The review used by the `delete_review` witness. -/
def revDune : Review := ⟨1, "DUNE", "A classic"⟩

/-- A one-book state that also holds a review of that book. -/
def stOneRev : UserState := ⟨[bookDuneVariant], [0], [], [revDune]⟩

theorem deleteReview_case_analysis_witness :
    delete_review stOneRev (some 1) =
      (DeleteReviewResult.deleted bookDuneVariant.title,
        ⟨stOneRev.heap, stOneRev.personal_library, stOneRev.favorite_books,
         ([] : List Review) ++ []⟩) :=
  (deleteReview_case_analysis stOneRev (some 1)).2.2.2 1 0 bookDuneVariant [] revDune []
    rfl (by decide) (by decide) rfl (by decide) rfl

/-! ### Reachability and the favorites-subset property -/

/-- States reachable from a fresh account by any sequence of the six
engine operations. -/
inductive Reachable : UserState → Prop where
  | init : Reachable initState
  | addBook : ∀ (s : UserState) (title author : Option String) (docs : List Doc)
      (res : AddBookResult) (s' : UserState), Reachable s →
      add_book_personal_library s title author docs = some (res, s') →
      Reachable s'
  | favorite : ∀ (s : UserState) (bid : Nat), Reachable s →
      Reachable (add_book_favorite_books s bid).2
  | deleteBook : ∀ (s : UserState) (bid : Nat), Reachable s →
      Reachable (delete_book_from_library s bid).2
  | updateStatus : ∀ (s : UserState) (bid : Nat) (ns : String) (ok : Bool),
      Reachable s → Reachable (update_status s bid ns ok).2
  | addReview : ∀ (s : UserState) (txt : String) (bid : Nat),
      Reachable s → Reachable (add_book_review s txt bid).2
  | deleteReview : ∀ (s : UserState) (bid : Option Nat),
      Reachable s → Reachable (delete_review s bid).2

/-- States reachable without ever calling `delete_book_from_library`. -/
inductive ReachableNoDelete : UserState → Prop where
  | init : ReachableNoDelete initState
  | addBook : ∀ (s : UserState) (title author : Option String) (docs : List Doc)
      (res : AddBookResult) (s' : UserState), ReachableNoDelete s →
      add_book_personal_library s title author docs = some (res, s') →
      ReachableNoDelete s'
  | favorite : ∀ (s : UserState) (bid : Nat), ReachableNoDelete s →
      ReachableNoDelete (add_book_favorite_books s bid).2
  | updateStatus : ∀ (s : UserState) (bid : Nat) (ns : String) (ok : Bool),
      ReachableNoDelete s → ReachableNoDelete (update_status s bid ns ok).2
  | addReview : ∀ (s : UserState) (txt : String) (bid : Nat),
      ReachableNoDelete s → ReachableNoDelete (add_book_review s txt bid).2
  | deleteReview : ∀ (s : UserState) (bid : Option Nat),
      ReachableNoDelete s → ReachableNoDelete (delete_review s bid).2

theorem add_book_state_shape {s : UserState} {title author : Option String}
    {docs : List Doc} {res : AddBookResult} {s' : UserState}
    (h : add_book_personal_library s title author docs = some (res, s')) :
    s' = s ∨ ∃ nb, s' = ⟨s.heap ++ [nb], s.personal_library ++ [s.heap.length],
      s.favorite_books, s.reviews⟩ := by
  unfold add_book_personal_library at h
  split at h
  · cases h; exact Or.inl rfl
  · split at h
    · cases h; exact Or.inl rfl
    · split at h
      · cases h; exact Or.inl rfl
      · split at h
        · split at h
          · cases h
          · split at h
            · cases h; exact Or.inl rfl
            · cases h; exact Or.inr ⟨_, rfl⟩
        · split at h
          · cases h
          · cases h; exact Or.inl rfl

theorem FavSubsetP_append {s : UserState} (nb : Book) (h : FavSubsetP s) :
    FavSubsetP ⟨s.heap ++ [nb], s.personal_library ++ [s.heap.length],
      s.favorite_books, s.reviews⟩ := by
  intro r hr
  rcases h r hr with ⟨b, hb, r2, hr2, b2, hb2, hid⟩
  have hlt : r < s.heap.length := (List.getElem?_eq_some.mp hb).1
  have hlt2 : r2 < s.heap.length := (List.getElem?_eq_some.mp hb2).1
  exact ⟨b, (List.getElem?_append_left hlt).trans hb,
    r2, List.mem_append_left _ hr2,
    b2, (List.getElem?_append_left hlt2).trans hb2, hid⟩

theorem FavSubsetP_set {s : UserState} {r : Nat} {b : Book} (b' : Book)
    (hrb : s.heap[r]? = some b) (hid : b'.id = b.id) (h : FavSubsetP s) :
    FavSubsetP ⟨s.heap.set r b', s.personal_library, s.favorite_books,
      s.reviews⟩ := by
  have hlt : r < s.heap.length := (List.getElem?_eq_some.mp hrb).1
  intro rf hrf
  rcases h rf hrf with ⟨b0, hb0, r2, hr2, b20, hb20, hid0⟩
  by_cases hrfr : rf = r
  · subst hrfr
    have hb0b : b0 = b := by rw [hb0] at hrb; cases hrb; rfl
    refine ⟨b', List.getElem?_set_eq_of_lt _ hlt, ?_⟩
    by_cases hr2r : r2 = rf
    · subst hr2r
      exact ⟨r2, hr2, b', List.getElem?_set_eq_of_lt _ hlt, rfl⟩
    · refine ⟨r2, hr2, b20, ?_, ?_⟩
      · rw [List.getElem?_set_ne fun he => hr2r he.symm]; exact hb20
      · rw [hid, ← hb0b, hid0]
  · refine ⟨b0, ?_, ?_⟩
    · rw [List.getElem?_set_ne fun he => hrfr he.symm]; exact hb0
    by_cases hr2r : r2 = r
    · subst hr2r
      have hb20b : b20 = b := by rw [hb20] at hrb; cases hrb; rfl
      exact ⟨r2, hr2, b', List.getElem?_set_eq_of_lt _ hlt,
        by rw [hid, ← hb20b, hid0]⟩
    · refine ⟨r2, hr2, b20, ?_, hid0⟩
      rw [List.getElem?_set_ne fun he => hr2r he.symm]; exact hb20

theorem FavSubsetP_set_append {s : UserState} {r : Nat} {b : Book} (b' : Book)
    (hrb : s.heap[r]? = some b) (hr : r ∈ s.personal_library)
    (hid : b'.id = b.id) (h : FavSubsetP s) :
    FavSubsetP ⟨s.heap.set r b', s.personal_library, s.favorite_books ++ [r],
      s.reviews⟩ := by
  have hlt : r < s.heap.length := (List.getElem?_eq_some.mp hrb).1
  intro rf hrf
  rcases List.mem_append.mp hrf with hrf' | hrf'
  · exact FavSubsetP_set b' hrb hid h rf hrf'
  · have : rf = r := by simpa using hrf'
    subst this
    exact ⟨b', List.getElem?_set_eq_of_lt _ hlt, rf, hr, b',
      List.getElem?_set_eq_of_lt _ hlt, rfl⟩

theorem FavSubsetP_favorite (s : UserState) (bid : Nat) (h : FavSubsetP s) :
    FavSubsetP (add_book_favorite_books s bid).2 := by
  cases hfind : findRefBook s.heap s.personal_library bid with
  | none => simpa [add_book_favorite_books, hfind] using h
  | some rb =>
    obtain ⟨r, b⟩ := rb
    cases hfav : findRefBook s.heap s.favorite_books bid with
    | some rb2 =>
      obtain ⟨r2, b2⟩ := rb2
      simpa [add_book_favorite_books, hfind, hfav] using h
    | none =>
      rcases findRefBook_eq_some hfind with ⟨hr, hrb, hbid⟩
      have hgoal : (add_book_favorite_books s bid).2 =
          ⟨s.heap.set r { b with status := "Read" }, s.personal_library,
           s.favorite_books ++ [r], s.reviews⟩ := by
        simp only [add_book_favorite_books, hfind, hfav]
      rw [hgoal]
      exact FavSubsetP_set_append _ hrb hr rfl h

theorem FavSubsetP_update (s : UserState) (bid : Nat) (ns : String) (ok : Bool)
    (h : FavSubsetP s) : FavSubsetP (update_status s bid ns ok).2 := by
  unfold update_status
  by_cases hv : ns ∉ ["Want to Read", "Reading", "Read"]
  · rw [if_pos hv]
    exact h
  · rw [if_neg hv]
    cases hfind : findRefBook s.heap s.personal_library bid with
    | none => exact h
    | some rb =>
      obtain ⟨r, b⟩ := rb
      rcases findRefBook_eq_some hfind with ⟨hr, hrb, hbid⟩
      have hs := FavSubsetP_set { b with status := ns } hrb rfl h
      cases ok
      · exact hs
      · exact hs

theorem FavSubsetP_addReview (s : UserState) (txt : String) (bid : Nat)
    (h : FavSubsetP s) : FavSubsetP (add_book_review s txt bid).2 := by
  by_cases ht : txt = ""
  · simpa [add_book_review, ht] using h
  · cases hfind : findRefBook s.heap s.personal_library bid with
    | none => simpa [add_book_review, ht, hfind] using h
    | some rb =>
      obtain ⟨r, b⟩ := rb
      by_cases hdup : s.reviews.any (fun rv => rv.book_id == bid)
      · simpa [add_book_review, ht, hfind, hdup] using h
      · have h2 : (add_book_review s txt bid).2 =
            ⟨s.heap, s.personal_library, s.favorite_books,
             s.reviews ++ [⟨bid, b.title, txt⟩]⟩ := by
          simp [add_book_review, ht, hfind, hdup]
        rw [h2]
        exact h

theorem FavSubsetP_deleteReview (s : UserState) (bid : Option Nat)
    (h : FavSubsetP s) : FavSubsetP (delete_review s bid).2 := by
  unfold delete_review
  split
  · exact h
  · split
    · exact h
    · split
      · exact h
      · split
        · exact h
        · exact h

/-- Claim C5 (amended): in every account state reachable by sequences of
the engine's operations that never invoke `delete_book_from_library`,
every book in `favorite_books` has an id that is also the id of some book
currently in `personal_library`.  (`delete_book_from_library` breaks the
property — see the counterexample.) -/
theorem favorites_subset_invariant (s : UserState)
    (h : ReachableNoDelete s) : FavSubsetP s := by
  induction h with
  | init =>
    intro r hr
    simp [initState] at hr
  | addBook s title author docs res s' hre heq ih =>
    rcases add_book_state_shape heq with rfl | ⟨nb, rfl⟩
    · exact ih
    · exact FavSubsetP_append nb ih
  | favorite s bid hre ih => exact FavSubsetP_favorite s bid ih
  | updateStatus s bid ns ok hre ih => exact FavSubsetP_update s bid ns ok ih
  | addReview s txt bid hre ih => exact FavSubsetP_addReview s txt bid ih
  | deleteReview s bid hre ih => exact FavSubsetP_deleteReview s bid ih

/-- The book created by adding "Dune" to an empty library. -/
def cexBook : Book := ⟨1, "Dune", "Frank Herbert", some "9780441013593", "Want to Read"⟩

/-- State after `addBook` on a fresh account. -/
def cexS1 : UserState := ⟨[cexBook], [0], [], []⟩

/-- State after then favoriting book 1. -/
def cexS2 : UserState := (add_book_favorite_books cexS1 1).2

/-- State after then deleting book 1 from the personal library. -/
def cexS3 : UserState := (delete_book_from_library cexS2 1).2

/-- Claim C5 counterexample: the state reached by addBook, favoriteBook,
deleteBook is reachable, yet its `favorite_books` holds a book whose id is
no longer the id of any book in `personal_library` — the subset invariant
fails over the full operation set because `delete_book_from_library` does
not touch `favorite_books`. -/
theorem favorites_subset_violated : Reachable cexS3 ∧ ¬ FavSubsetP cexS3 := by
  constructor
  · exact Reachable.deleteBook cexS2 1
      (Reachable.favorite cexS1 1
        (Reachable.addBook initState (some "Dune") none [docDune]
          (AddBookResult.success cexBook) cexS1 Reachable.init (by decide)))
  · intro h
    rcases h 0 (by decide) with ⟨b, hb, r2, hr2, b2, hb2, hid⟩
    rw [show cexS3.personal_library = [] from by decide] at hr2
    exact List.not_mem_nil r2 hr2

theorem favorites_subset_invariant_witness : FavSubsetP cexS2 :=
  favorites_subset_invariant cexS2
    (ReachableNoDelete.favorite cexS1 1
      (ReachableNoDelete.addBook initState (some "Dune") none [docDune]
        (AddBookResult.success cexBook) cexS1 ReachableNoDelete.init (by decide)))

/-! ### Password hashing (`User.set_password` / `User.check_password`) -/

/-- The credential attributes of a `User` instance; `__init__` leaves both
`None` until `set_password` runs. -/
structure Creds where
  salt : Option String
  password_hash : Option String
deriving DecidableEq, Repr

/-- `User.set_password`: store the drawn salt (`os.urandom(64).hex()` in
the source, modelled as an input) and the digest of
`f"{password}{self.salt}"`.  The digest function itself is
`hashlib.sha512(...).hexdigest()`, a library external to this repository,
so it is an abstract parameter here. -/
def set_password (hash : String → String) (c : Creds) (password salt : String) :
    Creds :=
  { c with salt := some salt, password_hash := some (hash (password ++ salt)) }

/-- `User.check_password`: false when salt or stored hash is absent (or
empty — both are falsy); otherwise recompute and compare for exact
equality. -/
def check_password (hash : String → String) (c : Creds) (password : String) :
    Bool :=
  match c.salt, c.password_hash with
  | some salt, some stored =>
    if salt = "" ∨ stored = "" then false
    else stored == hash (password ++ salt)
  | _, _ => false

/-- Claim C8: after `set_password` with plaintext `p`, `check_password`
accepts `p` and rejects every other plaintext, for every (non-empty) salt;
and `check_password` is false whenever salt or hash is absent.  The
external SHA-512 is modelled as an abstract function, assumed injective
(collision-free on the inputs involved) and never producing the empty
digest — both hold of `sha512(...).hexdigest()`. -/
theorem password_roundtrip (hash : String → String)
    (hinj : Function.Injective hash) (hout : ∀ q, hash q ≠ "")
    (c : Creds) (salt p p' : String) (hs : salt ≠ "") (hne : p' ≠ p) :
    check_password hash (set_password hash c p salt) p = true ∧
    check_password hash (set_password hash c p salt) p' = false ∧
    (∀ c2 : Creds, c2.salt = none ∨ c2.password_hash = none →
      check_password hash c2 p = false) := by
  refine ⟨?_, ?_, ?_⟩
  · show (if salt = "" ∨ hash (p ++ salt) = "" then false
      else hash (p ++ salt) == hash (p ++ salt)) = true
    rw [if_neg (by push_neg; exact ⟨hs, hout _⟩)]
    simp
  · show (if salt = "" ∨ hash (p ++ salt) = "" then false
      else hash (p ++ salt) == hash (p' ++ salt)) = false
    rw [if_neg (by push_neg; exact ⟨hs, hout _⟩)]
    refine beq_eq_false_iff_ne.mpr fun he => hne ?_
    have h2 := hinj he
    have h3 := congrArg String.data h2
    rw [String.data_append, String.data_append] at h3
    exact (String.ext (List.append_cancel_right h3)).symm
  · intro c2 hc2
    obtain ⟨cs, ch⟩ := c2
    rcases hc2 with h | h
    · have : cs = none := h
      subst this
      cases ch <;> rfl
    · have : ch = none := h
      subst this
      cases cs <;> rfl

/-- Injective, never-empty stand-in for the external digest, used only to
instantiate the round-trip theorem. -/
def tagHash (q : String) : String := ⟨'#' :: q.data⟩

theorem tagHash_injective : Function.Injective tagHash := by
  intro a b h
  have h2 : '#' :: a.data = '#' :: b.data := congrArg String.data h
  exact String.ext (List.tail_eq_of_cons_eq h2)

theorem tagHash_ne_empty (q : String) : tagHash q ≠ "" := by
  intro h
  have h2 : '#' :: q.data = [] := congrArg String.data h
  cases h2

theorem password_roundtrip_witness :
    check_password tagHash
        (set_password tagHash ⟨none, none⟩ "hunter2" "a3f9") "hunter2" = true ∧
    check_password tagHash
        (set_password tagHash ⟨none, none⟩ "hunter2" "a3f9") "letmein" = false ∧
    (∀ c2 : Creds, c2.salt = none ∨ c2.password_hash = none →
      check_password tagHash c2 "hunter2" = false) :=
  password_roundtrip tagHash tagHash_injective tagHash_ne_empty
    ⟨none, none⟩ "a3f9" "hunter2" "letmein" (by decide) (by decide)

/-! ### Class-level collections are shared across accounts -/

/-- A `User` instance as the source constructs it.  The first four fields
are the attributes `__init__` (and `get_user_by_username`) may place in
the instance dict; the three `inst_*` fields model instance-dict entries
for the collection attributes, `none` meaning "absent from the instance
dict". -/
structure PyUser where
  id : Option Nat
  username : Option String
  salt : Option String
  password_hash : Option String
  inst_personal_library : Option (List Nat)
  inst_favorite_books : Option (List Nat)
  inst_reviews : Option (List Review)
deriving DecidableEq, Repr

/-- `User.__init__(self, id=None, username=None)`: assigns `id`,
`username`, `salt = None`, `password_hash = None` — and no collection
attribute, so the instance dict never shadows the class-level lists. -/
def User.init (id : Option Nat) (username : Option String) : PyUser :=
  ⟨id, username, none, none, none, none, none⟩

/-- Python attribute lookup for `user.personal_library`: the instance
dict first, else the class attribute (the shared class-level list). -/
def PyUser.libraryRefs (u : PyUser) (cls : UserState) : List Nat :=
  u.inst_personal_library.getD cls.personal_library

/-- The books an account observes in "its" library. -/
def PyUser.libraryBooks (u : PyUser) (cls : UserState) : List Book :=
  (u.libraryRefs cls).filterMap (fun r => cls.heap[r]?)

/-- Claim C9: `personal_library`, `favorite_books` and `reviews` are
class-scope attributes, so every `User` instance aliases the same
collections: two distinct accounts resolve `personal_library` to the very
same list in every class state, and a book one account adds is observed
in the other account's library. -/
theorem class_collections_aliased (i1 i2 : Option Nat) (n1 n2 : Option String)
    (hdiff : n1 ≠ n2)
    (cls : UserState) (t : String) (author : Option String) (d : Doc)
    (rest : List Doc) (ht : t ≠ "")
    (hcommit : (d :: rest).length = 1 ∨ author.isSome = true)
    (a : String) (ha : docAuthor d = some a)
    (hnodup : ∀ b ∈ booksOf cls, matchesTA b (docTitle d) a = false) :
    (∀ c : UserState, PyUser.libraryRefs (User.init i1 n1) c =
      PyUser.libraryRefs (User.init i2 n2) c) ∧
    ∃ nb s', add_book_personal_library cls (some t) author (d :: rest) =
        some (AddBookResult.success nb, s') ∧
      nb ∈ PyUser.libraryBooks (User.init i2 n2) s' := by
  constructor
  · intro c; rfl
  · have hguard : ((d :: rest).length == 1 || author.isSome) = true := by
      rcases hcommit with h | h
      · simp [h]
      · simp [h]
    have hfd := findDuplicate_none_of_forall hnodup
    refine ⟨⟨cls.personal_library.length + 1, docTitle d, a, docIsbn d,
        "Want to Read"⟩,
      ⟨cls.heap ++ [⟨cls.personal_library.length + 1, docTitle d, a, docIsbn d,
        "Want to Read"⟩],
       cls.personal_library ++ [cls.heap.length], cls.favorite_books,
       cls.reviews⟩, ?_, ?_⟩
    · simp only [add_book_personal_library, if_neg ht, hguard, if_true, ha, hfd]
    · show (⟨cls.personal_library.length + 1, docTitle d, a, docIsbn d,
          "Want to Read"⟩ : Book) ∈
        (cls.personal_library ++ [cls.heap.length]).filterMap
          (fun r => (cls.heap ++ [(⟨cls.personal_library.length + 1, docTitle d,
            a, docIsbn d, "Want to Read"⟩ : Book)])[r]?)
      exact List.mem_filterMap.mpr ⟨cls.heap.length,
        List.mem_append_right _ (List.mem_singleton.mpr rfl),
        List.getElem?_concat_length _ _⟩

theorem class_collections_aliased_witness :
    (∀ c : UserState, PyUser.libraryRefs (User.init (some 1) (some "alice")) c =
      PyUser.libraryRefs (User.init (some 2) (some "bob")) c) ∧
    ∃ nb s', add_book_personal_library initState (some "Dune") none [docDune] =
        some (AddBookResult.success nb, s') ∧
      nb ∈ PyUser.libraryBooks (User.init (some 2) (some "bob")) s' :=
  class_collections_aliased (some 1) (some 2) (some "alice") (some "bob")
    (by decide) initState "Dune" none docDune [] (by decide) (Or.inl rfl)
    "Frank Herbert" (by decide) (by decide)

/-! ### The unhandled IndexError on an empty author list -/

/-- Claim C10: `add_book_personal_library` is not total over candidate
shapes.  When the committed candidate has `author_name` present but equal
to the empty list, `book.get("author_name", ["Unknown"])[0]` raises an
unhandled IndexError (the default applies only when the key is absent), so
the call crashes — modelled as `none` — instead of returning a structured
result; the same unguarded indexing crashes the ambiguous-candidate list
construction when any returned document has an empty `author_name`. -/
theorem addBook_empty_author_crash (s : UserState) (t : String)
    (author : Option String) (d : Doc) (ht : t ≠ "")
    (hd : d.author_name = some []) :
    (∀ rest : List Doc, (d :: rest).length = 1 ∨ author.isSome = true →
      add_book_personal_library s (some t) author (d :: rest) = none) ∧
    (∀ (d0 : Doc) (rest0 : List Doc), d ∈ d0 :: rest0 →
      ¬((d0 :: rest0).length = 1 ∨ author.isSome = true) →
      add_book_personal_library s (some t) author (d0 :: rest0) = none) := by
  have hda : docAuthor d = none := by rw [docAuthor, hd]; rfl
  constructor
  · intro rest hcommit
    have hguard : ((d :: rest).length == 1 || author.isSome) = true := by
      rcases hcommit with h | h
      · simp [h]
      · simp [h]
    simp only [add_book_personal_library, if_neg ht, hguard, if_true, hda]
  · intro d0 rest0 hmem h2
    have hguard : ((d0 :: rest0).length == 1 || author.isSome) = false := by
      push_neg at h2
      rcases h2 with ⟨hl, hs⟩
      have hrest : rest0 ≠ [] := fun h => hl (by simp [h])
      simp [hrest, Bool.eq_false_iff.mpr hs]
    have hmk : mkCandidates (d0 :: rest0) = none := mkCandidates_crash hmem hda
    simp only [add_book_personal_library, if_neg ht, hguard, Bool.false_eq_true,
      if_false, hmk]

/-- A document whose `author_name` key is present but empty. -/
def docGhost : Doc := ⟨some "Ghost", some [], none⟩

theorem addBook_empty_author_crash_witness :
    add_book_personal_library initState (some "Ghost") (some "Anyone")
      [docGhost] = none :=
  (addBook_empty_author_crash initState "Ghost" (some "Anyone") docGhost
    (by decide) rfl).1 [] (Or.inl rfl)
